import Mathlib

/-!
# Verification of the auto-home device-integration layer

Shallow embedding of the repository's Bluetooth body-composition scale
decoder (`miniprogram/utils/ble_scale.js`, function `parseScaleData`) and a
spec-modelled single-flight session manager (the backend SessionManager is
described by the design documents but its implementation is not in the
repository snapshot).

Bytes are modelled as `Nat` (a `Uint8Array` element is in `0..255`; where a
proof needs the bound it is an explicit hypothesis).  JavaScript numbers on
the weight path are modelled as exact rationals `ℚ`; `toFixed(2)` followed
by `parseFloat` is modelled by `roundTo2` (round half up at the second
decimal, the behaviour of `toFixed` on non-negative values).
-/

namespace AutoHome

/-- Reading `data[i]` from a `Uint8Array`.  An out-of-range read yields
`undefined`, and `undefined & mask` coerces `undefined` to `0` (via
`ToInt32(NaN) = 0`), so an out-of-range byte behaves as `0` in every use the
decoder makes of it. -/
def byteAt (data : List Nat) (i : Nat) : Nat :=
  data.getD i 0

/-- `parseFloat(x.toFixed(2))` for a non-negative number: round half up to
two decimal places. -/
def roundTo2 (q : ℚ) : ℚ :=
  (⌊q * 100 + 1 / 2⌋ : ℚ) / 100

/-- The object returned by a successful `parseScaleData` call:
`{ weight, impedance, isStabilized }`. -/
structure ScaleResult where
  weight : ℚ
  impedance : Nat
  isStabilized : Bool
deriving DecidableEq

/-- Embedding of `parseScaleData` from `miniprogram/utils/ble_scale.js`.

```js
const ctrlByte0 = data[0];
const ctrlByte1 = data[1];
const isStabilized = (ctrlByte1 & 0x20) !== 0;
const isLbs = (ctrlByte0 & 0x01) !== 0;
const isCatty = (ctrlByte0 & 0x10) !== 0;
if (data.length < 13) return null;
let weight = (data[12] << 8) | data[11];
if (isCatty) { weight = weight / 200.0; weight = weight * 0.5; }
else if (isLbs) { weight = weight * 0.005; weight = weight * 0.453592; }
else { weight = weight / 200.0; }
let impedance = (data[10] << 8) | data[9];
return { weight: parseFloat(weight.toFixed(2)), impedance, isStabilized };
```
-/
def parseScaleData (data : List Nat) : Option ScaleResult :=
  let ctrlByte0 := byteAt data 0
  let ctrlByte1 := byteAt data 1
  let isStabilized := (ctrlByte1 &&& 0x20) != 0
  let isLbs := (ctrlByte0 &&& 0x01) != 0
  let isCatty := (ctrlByte0 &&& 0x10) != 0
  if data.length < 13 then
    none
  else
    let raw : Nat := (byteAt data 12) <<< 8 ||| byteAt data 11
    let weight : ℚ :=
      if isCatty then (raw : ℚ) / 200 * 0.5
      else if isLbs then (raw : ℚ) * 0.005 * 0.453592
      else (raw : ℚ) / 200
    let impedance : Nat := (byteAt data 10) <<< 8 ||| byteAt data 9
    some { weight := roundTo2 weight
           impedance := impedance
           isStabilized := isStabilized }

/-- The raw little-endian weight field of a frame, `(data[12] << 8) | data[11]`. -/
def rawOf (data : List Nat) : Nat :=
  (byteAt data 12) <<< 8 ||| byteAt data 11

/-- The impedance field of a frame, `(data[10] << 8) | data[9]`. -/
def impedanceOf (data : List Nat) : Nat :=
  (byteAt data 10) <<< 8 ||| byteAt data 9

/-- The stabilized flag of a frame, `(data[1] & 0x20) !== 0`. -/
def stabilizedOf (data : List Nat) : Bool :=
  (byteAt data 1 &&& 0x20) != 0

/-- The weight in kilograms before rounding, following the decoder's unit
resolution order: catty, then pounds, then default kilograms. -/
def rawWeightKg (data : List Nat) : ℚ :=
  if (byteAt data 0 &&& 0x10) != 0 then (rawOf data : ℚ) / 200 * 0.5
  else if (byteAt data 0 &&& 0x01) != 0 then (rawOf data : ℚ) * 0.005 * 0.453592
  else (rawOf data : ℚ) / 200

/-- Characterization of `parseScaleData` on frames long enough to decode. -/
theorem parseScaleData_eq_of_length (data : List Nat) (hlen : 13 ≤ data.length) :
    parseScaleData data =
      some { weight := roundTo2 (rawWeightKg data)
             impedance := impedanceOf data
             isStabilized := stabilizedOf data } := by
  simp only [parseScaleData, rawWeightKg, rawOf, impedanceOf, stabilizedOf,
    if_neg (Nat.not_lt.mpr hlen)]

/-- **C1.** A frame shorter than 13 bytes always decodes to the null result,
never a partial frame. -/
theorem parseScaleData_short_frame (data : List Nat) (h : data.length < 13) :
    parseScaleData data = none := by
  simp only [parseScaleData, if_pos h]

/-- Witness for C1 at the concrete 3-byte frame `[1, 2, 3]`. -/
theorem parseScaleData_short_frame_witness :
    ([1, 2, 3] : List Nat).length < 13 ∧ parseScaleData [1, 2, 3] = none :=
  ⟨by decide, parseScaleData_short_frame [1, 2, 3] (by decide)⟩

/-- Rewriting a boolean mask test as a `≠ 0` hypothesis demands. -/
theorem bne_zero_of_ne {x : Nat} (h : x ≠ 0) : (x != 0) = true := by
  simpa using h

/-- Rewriting a boolean mask test when the mask result is zero. -/
theorem bne_zero_of_eq {x : Nat} (h : x = 0) : (x != 0) = false := by
  simp [h]

/-- **C2.** Unit-resolution priority: on a frame with both the catty bit
(byte 0 bit 4) and the pounds bit (byte 0 bit 0) set, the decoder uses the
catty formula `weight_kg = (raw / 200.0) * 0.5`. -/
theorem parseScaleData_catty_priority (data : List Nat)
    (hlen : 13 ≤ data.length)
    (hcatty : byteAt data 0 &&& 0x10 ≠ 0)
    (_hlbs : byteAt data 0 &&& 0x01 ≠ 0) :
    (parseScaleData data).map ScaleResult.weight =
      some (roundTo2 ((rawOf data : ℚ) / 200 * 0.5)) := by
  rw [parseScaleData_eq_of_length data hlen]
  simp [rawWeightKg, bne_zero_of_ne hcatty]

/-- Witness for C2: a 13-byte frame whose byte 0 is `0x11` (catty bit and
pounds bit both set) with raw weight 100. -/
theorem parseScaleData_catty_priority_witness :
    13 ≤ ([0x11, 0, 0, 0, 0, 0, 0, 0, 0, 0, 0, 100, 0] : List Nat).length ∧
    byteAt [0x11, 0, 0, 0, 0, 0, 0, 0, 0, 0, 0, 100, 0] 0 &&& 0x10 ≠ 0 ∧
    byteAt [0x11, 0, 0, 0, 0, 0, 0, 0, 0, 0, 0, 100, 0] 0 &&& 0x01 ≠ 0 ∧
    (parseScaleData [0x11, 0, 0, 0, 0, 0, 0, 0, 0, 0, 0, 100, 0]).map ScaleResult.weight =
      some (roundTo2 ((rawOf [0x11, 0, 0, 0, 0, 0, 0, 0, 0, 0, 0, 100, 0] : ℚ) / 200 * 0.5)) :=
  ⟨by decide, by decide, by decide,
    parseScaleData_catty_priority [0x11, 0, 0, 0, 0, 0, 0, 0, 0, 0, 0, 100, 0]
      (by decide) (by decide) (by decide)⟩

/-- **C4.** A frame with raw weight 12000 and both unit bits clear decodes
to 60.00 kg via the default kilogram formula `raw / 200.0`. -/
theorem parseScaleData_kg_12000 (data : List Nat)
    (hlen : 13 ≤ data.length)
    (hraw : rawOf data = 12000)
    (hlbs : byteAt data 0 &&& 0x01 = 0)
    (hcatty : byteAt data 0 &&& 0x10 = 0) :
    (parseScaleData data).map ScaleResult.weight = some 60 ∧
    roundTo2 ((12000 : ℚ) / 200) = 60 := by
  rw [parseScaleData_eq_of_length data hlen]
  simp only [rawWeightKg, bne_zero_of_eq hcatty, bne_zero_of_eq hlbs, hraw,
    Bool.false_eq_true, if_false, Option.map_some]
  norm_num [roundTo2]

/-- Witness for C4: raw weight field `12000 = 46 * 256 + 224` with no unit
bits set. -/
theorem parseScaleData_kg_12000_witness :
    13 ≤ ([0, 0, 0, 0, 0, 0, 0, 0, 0, 0, 0, 224, 46] : List Nat).length ∧
    rawOf [0, 0, 0, 0, 0, 0, 0, 0, 0, 0, 0, 224, 46] = 12000 ∧
    ((parseScaleData [0, 0, 0, 0, 0, 0, 0, 0, 0, 0, 0, 224, 46]).map ScaleResult.weight =
        some 60 ∧
      roundTo2 ((12000 : ℚ) / 200) = 60) :=
  ⟨by decide, by decide,
    parseScaleData_kg_12000 [0, 0, 0, 0, 0, 0, 0, 0, 0, 0, 0, 224, 46]
      (by decide) (by decide) (by decide) (by decide)⟩

/-- **C5.** A frame with raw weight 100, the pounds bit set and the catty
bit clear decodes to `100 * 0.005 * 0.453592` rounded to two decimals,
which is 0.23 kg. -/
theorem parseScaleData_lbs_100 (data : List Nat)
    (hlen : 13 ≤ data.length)
    (hraw : rawOf data = 100)
    (hlbs : byteAt data 0 &&& 0x01 ≠ 0)
    (hcatty : byteAt data 0 &&& 0x10 = 0) :
    (parseScaleData data).map ScaleResult.weight =
        some (roundTo2 ((100 : ℚ) * 0.005 * 0.453592)) ∧
    roundTo2 ((100 : ℚ) * 0.005 * 0.453592) = 0.23 := by
  rw [parseScaleData_eq_of_length data hlen]
  refine ⟨?_, by norm_num [roundTo2]⟩
  simp only [rawWeightKg, bne_zero_of_eq hcatty, bne_zero_of_ne hlbs, hraw,
    Bool.false_eq_true, if_false, if_true, Option.map_some]
  norm_num

/-- Witness for C5: a 13-byte frame with byte 0 = `0x01` and raw weight
field 100. -/
theorem parseScaleData_lbs_100_witness :
    13 ≤ ([1, 0, 0, 0, 0, 0, 0, 0, 0, 0, 0, 100, 0] : List Nat).length ∧
    rawOf [1, 0, 0, 0, 0, 0, 0, 0, 0, 0, 0, 100, 0] = 100 ∧
    ((parseScaleData [1, 0, 0, 0, 0, 0, 0, 0, 0, 0, 0, 100, 0]).map ScaleResult.weight =
        some (roundTo2 ((100 : ℚ) * 0.005 * 0.453592)) ∧
      roundTo2 ((100 : ℚ) * 0.005 * 0.453592) = 0.23) :=
  ⟨by decide, by decide,
    parseScaleData_lbs_100 [1, 0, 0, 0, 0, 0, 0, 0, 0, 0, 0, 100, 0]
      (by decide) (by decide) (by decide) (by decide)⟩

/-- A mask test `(b & 2^i) != 0` reads exactly bit `i` of the byte. -/
theorem and_two_pow_bne_zero (b i : Nat) :
    ((b &&& 2 ^ i) != 0) = b.testBit i := by
  rw [Nat.and_two_pow]
  cases h : b.testBit i <;> simp [Nat.pos_iff_ne_zero.mp (Nat.two_pow_pos i)]

/-- `(hi << 8) | lo` is the little-endian 16-bit value `lo + 256 * hi`
whenever `lo` is a byte. -/
theorem shiftLeft8_or_eq_le16 (hi lo : Nat) (hlo : lo < 256) :
    hi <<< 8 ||| lo = lo + 256 * hi := by
  have h : (2 : Nat) ^ 8 * hi + lo = 2 ^ 8 * hi ||| lo :=
    Nat.mul_add_lt_is_or (by omega) hi
  rw [Nat.shiftLeft_eq, Nat.mul_comm, ← h]
  omega

/-- Bytes taken from a frame whose entries are all bytes are below 256. -/
theorem byteAt_lt (data : List Nat) (hbytes : ∀ b ∈ data, b < 256)
    (i : Nat) (hi : i < data.length) : byteAt data i < 256 := by
  have : byteAt data i ∈ data := by
    unfold byteAt
    rw [List.getD_eq_getElem data 0 hi]
    exact List.getElem_mem hi
  exact hbytes _ this

/-- The telemetry frame fields as §4.5 of the specification words them:
pounds flag is bit 0 of byte 0, catty flag is bit 4 of byte 0, stabilized
flag is bit 5 of byte 1, impedance is the little-endian unsigned 16-bit
value of bytes 9–10, raw weight is the little-endian unsigned 16-bit value
of bytes 11–12, with unit priority catty, pounds, then kilograms. -/
def specDecodeFields (data : List Nat) : ScaleResult :=
  let lbs := (byteAt data 0).testBit 0
  let catty := (byteAt data 0).testBit 4
  let stabilized := (byteAt data 1).testBit 5
  let impedance := byteAt data 9 + 256 * byteAt data 10
  let raw := byteAt data 11 + 256 * byteAt data 12
  let weightKg : ℚ :=
    if catty then (raw : ℚ) / 200 * 0.5
    else if lbs then (raw : ℚ) * 0.005 * 0.453592
    else (raw : ℚ) / 200
  { weight := roundTo2 weightKg
    impedance := impedance
    isStabilized := stabilized }

/-- **C3.** On every well-formed frame of length at least 13 the decoder
extracts its fields at exactly the fixed layout offsets the specification
describes (`specDecodeFields`). -/
theorem parseScaleData_layout (data : List Nat)
    (hlen : 13 ≤ data.length) (hbytes : ∀ b ∈ data, b < 256) :
    parseScaleData data = some (specDecodeFields data) := by
  have h9 : byteAt data 9 < 256 := byteAt_lt data hbytes 9 (by omega)
  have h11 : byteAt data 11 < 256 := byteAt_lt data hbytes 11 (by omega)
  rw [parseScaleData_eq_of_length data hlen]
  unfold specDecodeFields rawWeightKg rawOf impedanceOf stabilizedOf
  rw [show (0x20 : Nat) = 2 ^ 5 by norm_num, and_two_pow_bne_zero,
    show (0x10 : Nat) = 2 ^ 4 by norm_num, and_two_pow_bne_zero,
    show (0x01 : Nat) = 2 ^ 0 by norm_num, and_two_pow_bne_zero,
    shiftLeft8_or_eq_le16 _ _ h9, shiftLeft8_or_eq_le16 _ _ h11]

/-- Witness for C3 on a concrete well-formed frame. -/
theorem parseScaleData_layout_witness :
    13 ≤ ([0x21, 0x20, 0, 0, 0, 0, 0, 0, 0, 7, 1, 100, 2] : List Nat).length ∧
    (∀ b ∈ ([0x21, 0x20, 0, 0, 0, 0, 0, 0, 0, 7, 1, 100, 2] : List Nat), b < 256) ∧
    parseScaleData [0x21, 0x20, 0, 0, 0, 0, 0, 0, 0, 7, 1, 100, 2] =
      some (specDecodeFields [0x21, 0x20, 0, 0, 0, 0, 0, 0, 0, 7, 1, 100, 2]) :=
  ⟨by decide, by decide,
    parseScaleData_layout [0x21, 0x20, 0, 0, 0, 0, 0, 0, 0, 7, 1, 100, 2]
      (by decide) (by decide)⟩

/-- **C6.** The decoder is deterministic and pure: it is embedded as a pure
function of the input bytes (the JavaScript body touches only locals), so
byte-for-byte identical buffers decode to identical results. -/
theorem parseScaleData_deterministic (d1 d2 : List Nat) (h : d1 = d2) :
    parseScaleData d1 = parseScaleData d2 := by
  rw [h]

/-- Witness for C6 on two syntactically identical concrete buffers. -/
theorem parseScaleData_deterministic_witness :
    ([0, 0, 0, 0, 0, 0, 0, 0, 0, 0, 0, 224, 46] : List Nat) =
        [0, 0, 0, 0, 0, 0, 0, 0, 0, 0, 0, 224, 46] ∧
    parseScaleData [0, 0, 0, 0, 0, 0, 0, 0, 0, 0, 0, 224, 46] =
      parseScaleData [0, 0, 0, 0, 0, 0, 0, 0, 0, 0, 0, 224, 46] :=
  ⟨rfl, parseScaleData_deterministic
    [0, 0, 0, 0, 0, 0, 0, 0, 0, 0, 0, 224, 46]
    [0, 0, 0, 0, 0, 0, 0, 0, 0, 0, 0, 224, 46] rfl⟩

/-- **C9.** The decoder is total: on every byte buffer, the empty buffer
included, it terminates with `some` result exactly when the buffer holds at
least 13 bytes and with the null result otherwise; the reads of bytes 0 and
1 that happen before the length check never fault because an out-of-range
`Uint8Array` read behaves as a cleared flag under the bit masks (modelled by
`byteAt` defaulting to 0). -/
theorem parseScaleData_total (data : List Nat) :
    ((parseScaleData data).isSome ↔ 13 ≤ data.length) ∧
    parseScaleData [] = none := by
  constructor
  · constructor
    · intro h
      by_contra hlen
      rw [parseScaleData_short_frame data (by omega)] at h
      simp at h
    · intro hlen
      rw [parseScaleData_eq_of_length data hlen]
      rfl
  · rfl

/-- **C10.** The decode output depends only on the bytes at offsets 0, 1,
9, 10, 11 and 12: two frames of length at least 13 that agree there decode
identically, so the timestamp region (bytes 2–8) and any bytes past offset
12 never influence the result. -/
theorem parseScaleData_depends_only_on_offsets (d1 d2 : List Nat)
    (h1 : 13 ≤ d1.length) (h2 : 13 ≤ d2.length)
    (hagree : ∀ i ∈ ([0, 1, 9, 10, 11, 12] : List Nat), byteAt d1 i = byteAt d2 i) :
    parseScaleData d1 = parseScaleData d2 := by
  have e0 := hagree 0 (by decide)
  have e1 := hagree 1 (by decide)
  have e9 := hagree 9 (by decide)
  have e10 := hagree 10 (by decide)
  have e11 := hagree 11 (by decide)
  have e12 := hagree 12 (by decide)
  rw [parseScaleData_eq_of_length d1 h1, parseScaleData_eq_of_length d2 h2]
  unfold rawWeightKg rawOf impedanceOf stabilizedOf
  rw [e0, e1, e9, e10, e11, e12]

/-- Witness for C10: two frames that differ in the timestamp byte 5 and in
length (a 14th byte) but agree at the six decoded offsets. -/
theorem parseScaleData_depends_only_on_offsets_witness :
    13 ≤ ([0, 0, 0, 0, 0, 7, 0, 0, 0, 0, 0, 224, 46] : List Nat).length ∧
    13 ≤ ([0, 0, 0, 0, 0, 0, 0, 0, 0, 0, 0, 224, 46, 9] : List Nat).length ∧
    (∀ i ∈ ([0, 1, 9, 10, 11, 12] : List Nat),
      byteAt [0, 0, 0, 0, 0, 7, 0, 0, 0, 0, 0, 224, 46] i =
        byteAt [0, 0, 0, 0, 0, 0, 0, 0, 0, 0, 0, 224, 46, 9] i) ∧
    parseScaleData [0, 0, 0, 0, 0, 7, 0, 0, 0, 0, 0, 224, 46] =
      parseScaleData [0, 0, 0, 0, 0, 0, 0, 0, 0, 0, 0, 224, 46, 9] :=
  ⟨by decide, by decide, by decide,
    parseScaleData_depends_only_on_offsets
      [0, 0, 0, 0, 0, 7, 0, 0, 0, 0, 0, 224, 46]
      [0, 0, 0, 0, 0, 0, 0, 0, 0, 0, 0, 224, 46, 9]
      (by decide) (by decide) (by decide)⟩

/-- **C8 counterexample.** The decode result does not contain the
unit-hint bits: the catty frame `[0x10, …, raw = 400]` and the plain-kg
frame `[0x00, …, raw = 200]` differ in their unit bits yet decode to the
same result object, so no field of the result records the unit-hint bits. -/
theorem parseScaleData_result_omits_unit_bits :
    parseScaleData [0x10, 0, 0, 0, 0, 0, 0, 0, 0, 0, 0, 144, 1] =
      parseScaleData [0, 0, 0, 0, 0, 0, 0, 0, 0, 0, 0, 200, 0] ∧
    byteAt [0x10, 0, 0, 0, 0, 0, 0, 0, 0, 0, 0, 144, 1] 0 &&& 0x10 ≠
      byteAt [0, 0, 0, 0, 0, 0, 0, 0, 0, 0, 0, 200, 0] 0 &&& 0x10 := by
  have hl : rawWeightKg [0x10, 0, 0, 0, 0, 0, 0, 0, 0, 0, 0, 144, 1] =
      (400 : ℚ) / 200 * 0.5 := by
    have h400 : rawOf [0x10, 0, 0, 0, 0, 0, 0, 0, 0, 0, 0, 144, 1] = 400 := by decide
    have hc : (byteAt [0x10, 0, 0, 0, 0, 0, 0, 0, 0, 0, 0, 144, 1] 0 &&& 0x10 != 0) = true := by
      decide
    unfold rawWeightKg
    rw [h400, hc]
    simp
  have hr : rawWeightKg [0, 0, 0, 0, 0, 0, 0, 0, 0, 0, 0, 200, 0] =
      (200 : ℚ) / 200 := by
    have h200 : rawOf [0, 0, 0, 0, 0, 0, 0, 0, 0, 0, 0, 200, 0] = 200 := by decide
    have hc : (byteAt [0, 0, 0, 0, 0, 0, 0, 0, 0, 0, 0, 200, 0] 0 &&& 0x10 != 0) = false := by
      decide
    have hp : (byteAt [0, 0, 0, 0, 0, 0, 0, 0, 0, 0, 0, 200, 0] 0 &&& 0x01 != 0) = false := by
      decide
    unfold rawWeightKg
    rw [h200, hc, hp]
    simp
  have hiA : impedanceOf [0x10, 0, 0, 0, 0, 0, 0, 0, 0, 0, 0, 144, 1] = 0 := by decide
  have hiB : impedanceOf [0, 0, 0, 0, 0, 0, 0, 0, 0, 0, 0, 200, 0] = 0 := by decide
  have hsA : stabilizedOf [0x10, 0, 0, 0, 0, 0, 0, 0, 0, 0, 0, 144, 1] = false := by decide
  have hsB : stabilizedOf [0, 0, 0, 0, 0, 0, 0, 0, 0, 0, 0, 200, 0] = false := by decide
  constructor
  · rw [parseScaleData_eq_of_length _ (by decide),
      parseScaleData_eq_of_length _ (by decide), hl, hr, hiA, hiB, hsA, hsB]
    simp only [Option.some.injEq, ScaleResult.mk.injEq]
    norm_num [roundTo2]
  · decide

/-- **C8 amended.** On every frame of length at least 13 the successful
decode result carries exactly the three fields the code returns — the
rounded weight, the impedance and the stabilized flag; the unit-hint bits
drive unit selection during decoding but are not part of the result. -/
theorem parseScaleData_result_fields (data : List Nat) (hlen : 13 ≤ data.length) :
    parseScaleData data =
      some { weight := roundTo2 (rawWeightKg data)
             impedance := impedanceOf data
             isStabilized := stabilizedOf data } :=
  parseScaleData_eq_of_length data hlen

/-- Witness for the amended C8 on a concrete 13-byte frame. -/
theorem parseScaleData_result_fields_witness :
    13 ≤ ([0x21, 0x20, 0, 0, 0, 0, 0, 0, 0, 7, 1, 224, 46] : List Nat).length ∧
    parseScaleData [0x21, 0x20, 0, 0, 0, 0, 0, 0, 0, 7, 1, 224, 46] =
      some { weight := roundTo2 (rawWeightKg [0x21, 0x20, 0, 0, 0, 0, 0, 0, 0, 7, 1, 224, 46])
             impedance := impedanceOf [0x21, 0x20, 0, 0, 0, 0, 0, 0, 0, 7, 1, 224, 46]
             isStabilized := stabilizedOf [0x21, 0x20, 0, 0, 0, 0, 0, 0, 0, 7, 1, 224, 46] } :=
  ⟨by decide,
    parseScaleData_result_fields [0x21, 0x20, 0, 0, 0, 0, 0, 0, 0, 7, 1, 224, 46] (by decide)⟩

/-! ## Single-flight session manager (C7)

Modelled from the spec: the backend SessionManager implementation is not in
the repository snapshot (the design documents describe it; only the
miniprogram frontend and documentation are present), so §4.1 and §5 are
modelled directly: one vendor, `N` concurrent callers of
`getValidSession`, a cache that starts empty, and a single-flight login.
The vendor is an oracle assigning an outcome (session or failure) to each
login request it would receive; distinct login requests may receive
distinct outcomes, so "all callers receive the same result" is only true
if at most one login is ever issued. -/

/-- Program counter of one caller of `getValidSession`:
not yet started, awaiting the shared in-flight login, or finished with an
outcome. -/
inductive CallerPC (O : Type) where
  | start : CallerPC O
  | waiting : CallerPC O
  | done : O → CallerPC O
deriving DecidableEq

/-- Modelled from the spec: the shared state of the session manager for one
vendor — the cached login outcome (none at the start of the scenario), the
login in flight (tagged with its request index), how many login requests
have been issued to the vendor, and each caller's program counter. -/
structure SMState (n : Nat) (O : Type) where
  cached : Option O
  inflight : Option Nat
  loginCount : Nat
  pcs : Fin n → CallerPC O

/-- The initial state of the C7 scenario: no session cached, no login in
flight, no login issued, every caller about to invoke `getValidSession`. -/
def SMState.init (n : Nat) (O : Type) : SMState n O :=
  { cached := none, inflight := none, loginCount := 0, pcs := fun _ => .start }

/-- Modelled from the spec: one atomic step of the interleaved execution.
A caller entering `getValidSession` either returns the cached outcome,
joins a login already in flight, or — when there is neither a cached
outcome nor an in-flight login — issues a new login to the vendor; a
completing login hands its oracle-assigned outcome to the cache and to
every waiting caller. -/
inductive SMStep {n : Nat} {O : Type} [DecidableEq O] (oracle : Nat → O) :
    SMState n O → SMState n O → Prop where
  | hitCache (s : SMState n O) (c : Fin n) (r : O) :
      s.pcs c = .start → s.cached = some r →
      SMStep oracle s { s with pcs := Function.update s.pcs c (.done r) }
  | joinFlight (s : SMState n O) (c : Fin n) (k : Nat) :
      s.pcs c = .start → s.cached = none → s.inflight = some k →
      SMStep oracle s { s with pcs := Function.update s.pcs c .waiting }
  | startLogin (s : SMState n O) (c : Fin n) :
      s.pcs c = .start → s.cached = none → s.inflight = none →
      SMStep oracle s { cached := none, inflight := some s.loginCount,
                        loginCount := s.loginCount + 1,
                        pcs := Function.update s.pcs c .waiting }
  | completeLogin (s : SMState n O) (k : Nat) :
      s.inflight = some k →
      SMStep oracle s { cached := some (oracle k), inflight := none,
                        loginCount := s.loginCount,
                        pcs := fun c =>
                          if s.pcs c = .waiting then .done (oracle k) else s.pcs c }

/-- The states an interleaved execution of the C7 scenario can reach. -/
def SMReachable {n : Nat} {O : Type} [DecidableEq O] (oracle : Nat → O) (s : SMState n O) : Prop :=
  Relation.ReflTransGen (SMStep oracle) (SMState.init n O) s

/-- The single-flight invariant: at most one login is ever issued, it is
login number 0, and every outcome anybody observes is the oracle's answer
to that single login. -/
def SMInv {n : Nat} {O : Type} (oracle : Nat → O) (s : SMState n O) : Prop :=
  s.loginCount ≤ 1 ∧
  (∀ r, s.cached = some r → r = oracle 0 ∧ s.loginCount = 1) ∧
  (∀ k, s.inflight = some k → k = 0 ∧ s.loginCount = 1 ∧ s.cached = none) ∧
  (s.cached = none → s.inflight = none → s.loginCount = 0) ∧
  (∀ c r, s.pcs c = .done r → r = oracle 0) ∧
  (∀ c, s.pcs c ≠ .start → s.loginCount = 1)

/-- The single-flight invariant holds initially. -/
theorem SMInv_init {n : Nat} {O : Type} (oracle : Nat → O) :
    SMInv oracle (SMState.init n O) := by
  refine ⟨by simp [SMState.init], ?_, ?_, ?_, ?_, ?_⟩ <;>
    simp [SMState.init]

/-- Every step preserves the single-flight invariant. -/
theorem SMInv_step {n : Nat} {O : Type} [DecidableEq O] (oracle : Nat → O)
    {s t : SMState n O} (hstep : SMStep oracle s t) (hinv : SMInv oracle s) :
    SMInv oracle t := by
  obtain ⟨hcnt, hcache, hflight, hzero, hdone, hstarted⟩ := hinv
  cases hstep with
  | hitCache c r hpc hc =>
    refine ⟨hcnt, hcache, hflight, hzero, ?_, ?_⟩
    · intro c' r' hr'
      simp only at hr'
      by_cases hcc : c' = c
      · subst hcc
        rw [Function.update_same] at hr'
        cases hr'
        exact (hcache r hc).1
      · rw [Function.update_noteq hcc] at hr'
        exact hdone c' r' hr'
    · intro c' _
      exact (hcache r hc).2
  | joinFlight c k hpc hc hf =>
    refine ⟨hcnt, hcache, hflight, hzero, ?_, ?_⟩
    · intro c' r' hr'
      simp only at hr'
      by_cases hcc : c' = c
      · subst hcc
        rw [Function.update_same] at hr'
        cases hr'
      · rw [Function.update_noteq hcc] at hr'
        exact hdone c' r' hr'
    · intro c' _
      exact (hflight k hf).2.1
  | startLogin c hpc hc hf =>
    have hzero' := hzero hc hf
    refine ⟨(by omega : s.loginCount + 1 ≤ 1), by simp, ?_, by simp, ?_, ?_⟩
    · intro k' hk'
      have hkk : s.loginCount = k' := Option.some.inj hk'
      exact ⟨by omega, (by omega : s.loginCount + 1 = 1), rfl⟩
    · intro c' r' hr'
      simp only at hr'
      by_cases hcc : c' = c
      · subst hcc
        rw [Function.update_same] at hr'
        cases hr'
      · rw [Function.update_noteq hcc] at hr'
        exact hdone c' r' hr'
    · intro c' _
      exact (by omega : s.loginCount + 1 = 1)
  | completeLogin k hf =>
    obtain ⟨hk0, hcnt1, hcnone⟩ := hflight k hf
    subst hk0
    refine ⟨hcnt, ?_, by simp, by simp, ?_, ?_⟩
    · intro r hr
      simp only [Option.some.injEq] at hr
      exact ⟨hr.symm, hcnt1⟩
    · intro c r hr
      simp only at hr
      by_cases hw : s.pcs c = CallerPC.waiting
      · rw [if_pos hw] at hr
        cases hr
        rfl
      · rw [if_neg hw] at hr
        exact hdone c r hr
    · intro c _
      exact hcnt1

/-- The single-flight invariant holds in every reachable state. -/
theorem SMInv_reachable {n : Nat} {O : Type} [DecidableEq O] (oracle : Nat → O)
    {s : SMState n O} (h : SMReachable oracle s) : SMInv oracle s := by
  induction h with
  | refl => exact SMInv_init oracle
  | tail _ hstep ih => exact SMInv_step oracle hstep ih

/-- **C7.** Single-flight login: in any interleaved execution of `n ≥ 1`
concurrent `getValidSession` callers that starts with no cached session and
ends with every caller finished, exactly one login request was issued to
the vendor and every caller received the outcome of that single login. -/
theorem getValidSession_single_flight {n : Nat} {O : Type} [DecidableEq O] (oracle : Nat → O)
    (s : SMState n O) (hn : 0 < n)
    (hreach : SMReachable oracle s)
    (hdone : ∀ c, ∃ r, s.pcs c = CallerPC.done r) :
    s.loginCount = 1 ∧ ∀ c, s.pcs c = CallerPC.done (oracle 0) := by
  have hinv := SMInv_reachable oracle hreach
  obtain ⟨_, _, _, _, hdoneInv, hstarted⟩ := hinv
  obtain ⟨r0, hr0⟩ := hdone ⟨0, hn⟩
  refine ⟨hstarted ⟨0, hn⟩ (by simp [hr0]), ?_⟩
  intro c
  obtain ⟨r, hr⟩ := hdone c
  rw [hr, hdoneInv c r hr]

/-- A concrete vendor oracle for the witness scenario: login request `k`
receives outcome `100 + k`, so distinct logins would visibly differ. -/
def smOracle : Nat → Nat := fun k => 100 + k

/-- State after caller 0 issues the single login. -/
def smS1 : SMState 2 Nat :=
  { cached := none, inflight := some 0, loginCount := 1,
    pcs := Function.update (SMState.init 2 Nat).pcs ⟨0, by omega⟩ CallerPC.waiting }

/-- State after caller 1 joins the in-flight login. -/
def smS2 : SMState 2 Nat :=
  { smS1 with pcs := Function.update smS1.pcs ⟨1, by omega⟩ CallerPC.waiting }

/-- State after the single login completes and both waiters are answered. -/
def smS3 : SMState 2 Nat :=
  { cached := some (smOracle 0), inflight := none, loginCount := smS2.loginCount,
    pcs := fun c =>
      if smS2.pcs c = CallerPC.waiting then CallerPC.done (smOracle 0) else smS2.pcs c }

/-- Witness for C7: two concurrent callers, an empty cache, caller 0 starts
the login, caller 1 joins it, the login completes; exactly one login was
issued and both callers hold its outcome. -/
theorem getValidSession_single_flight_witness :
    (0 : Nat) < 2 ∧
    (smS3.loginCount = 1 ∧ ∀ c : Fin 2, smS3.pcs c = CallerPC.done (smOracle 0)) := by
  refine ⟨by omega, ?_⟩
  refine getValidSession_single_flight smOracle smS3 (by omega) ?_ ?_
  · exact Relation.ReflTransGen.head
      (SMStep.startLogin (SMState.init 2 Nat) ⟨0, by omega⟩ rfl rfl rfl)
      (Relation.ReflTransGen.head
        (SMStep.joinFlight smS1 ⟨1, by omega⟩ 0 rfl rfl rfl)
        (Relation.ReflTransGen.head
          (SMStep.completeLogin smS2 0 rfl)
          Relation.ReflTransGen.refl))
  · intro c
    fin_cases c <;> exact ⟨smOracle 0, rfl⟩

end AutoHome
